import Mathlib

/- Verification development for the amr-wind ABL field initializer
   (src/amr-wind/wind_energy/ABLFieldInit.cpp).

   Real-valued quantities (amrex::Real) are modelled over the rationals.
   The transcendental primitives used by the source (M_PI, std::cos,
   std::sin, std::exp) are abstract parameters bundled in `RealOps`, so
   every theorem below holds for an arbitrary interpretation of them;
   the algebraic structure of the source formulas is what is verified. -/

namespace amr_wind

/-- Abstract interpretation of the transcendental primitives used by
ABLFieldInit.cpp: the constant M_PI and the functions std::cos, std::sin,
std::exp. -/
structure RealOps where
  pi : ℚ
  cos : ℚ → ℚ
  sin : ℚ → ℚ
  exp : ℚ → ℚ

/-- Modelled from the spec: `utils::radians` is declared in
amr-wind/utilities/trig_ops.H, which is not under src/; the spec says the
direction "is converted from degrees to radians", i.e. pi * deg / 180. -/
def radians (ops : RealOps) (deg : ℚ) : ℚ := ops.pi * deg / 180

/-- A 3-component vector value (one cell of the velocity field, or a point
of the geometry). Component x/y/z corresponds to index 0/1/2 of the C++
arrays. -/
structure Vec3 where
  x : ℚ
  y : ℚ
  z : ℚ
deriving DecidableEq

/-- Grid geometry: domain lower corner (ProbLoArray), upper corner
(ProbHiArray) and cell sizes (CellSizeArray), as used by
ABLFieldInit::operator(). -/
structure Geometry where
  problo : Vec3
  probhi : Vec3
  dx : Vec3

/-- An index box (amrex::Box): inclusive integer cell-index bounds per
axis. -/
structure Box where
  lox : ℤ
  loy : ℤ
  loz : ℤ
  hix : ℤ
  hiy : ℤ
  hiz : ℤ
deriving DecidableEq

/-- Membership of a cell index in a box. -/
def Box.mem (b : Box) (i j k : ℤ) : Bool :=
  decide (b.lox ≤ i ∧ i ≤ b.hix ∧ b.loy ≤ j ∧ j ≤ b.hiy ∧ b.loz ≤ k ∧ k ≤ b.hiz)

/-- Grow a box by `n` ghost cells in every direction (amrex::grow), as done
by MultiFab::setVal with a nonzero nghost argument. -/
def Box.grow (b : Box) (n : ℤ) : Box :=
  ⟨b.lox - n, b.loy - n, b.loz - n, b.hix + n, b.hiy + n, b.hiz + n⟩

/-- The mutable field views handed to ABLFieldInit::operator(): velocity
(3 components), density and temperature, addressed by cell index. -/
structure FieldState where
  velocity : ℤ → ℤ → ℤ → Vec3
  density : ℤ → ℤ → ℤ → ℚ
  temperature : ℤ → ℤ → ℤ → ℚ

/-- The fatal diagnostics the constructor can raise: the
AMREX_ALWAYS_ASSERT on the table lengths (line 18) and the amrex::Abort for
a missing velocity-timetable file (line 45). -/
inductive AbortMsg where
  | assertLengthMismatch : AbortMsg
  | cannotFindInputFile (path : String) : AbortMsg
deriving DecidableEq

/-- Rendered diagnostic text of each fatal abort. -/
def AbortMsg.render : AbortMsg → String
  | AbortMsg.assertLengthMismatch =>
      "Assertion failed: m_theta_heights.size() == m_theta_values.size()"
  | AbortMsg.cannotFindInputFile p => "Cannot find input file: " ++ p

/-- The configuration snapshot read through amrex::ParmParse in the
constructor (keys of the ABL and incflo namespaces). An empty
`velocity_timetable` string models an absent key, exactly as the C++
member default does. -/
structure ParmParseInput where
  temperature_heights : List ℚ
  temperature_values : List ℚ
  perturb_velocity : Bool
  perturb_ref_height : ℚ
  Uperiods : ℚ
  Vperiods : ℚ
  deltaU : ℚ
  deltaV : ℚ
  perturb_temperature : Bool
  random_gauss_mean : ℚ
  random_gauss_var : ℚ
  cutoff_height : ℚ
  theta_amplitude : ℚ
  init_tke : ℚ
  density : ℚ
  velocity_timetable : String
  velocity : List ℚ

/-- The member state of a constructed ABLFieldInit object. The device
mirrors m_thht_d / m_thvv_d are byte-for-byte copies of m_theta_heights /
m_theta_values (lines 54-62), so they are represented by the same lists. -/
structure ABLFieldInit where
  theta_heights : List ℚ
  theta_values : List ℚ
  perturb_vel : Bool
  ref_height : ℚ
  Uperiods : ℚ
  Vperiods : ℚ
  deltaU : ℚ
  deltaV : ℚ
  perturb_theta : Bool
  theta_gauss_mean : ℚ
  theta_gauss_var : ℚ
  theta_cutoff_height : ℚ
  deltaT : ℚ
  tke_init : ℚ
  rho : ℚ
  vel_timetable : String
  vel_speed : ℚ
  vel_dir : ℚ
  vel_rad : ℚ
  vel : List ℚ
deriving DecidableEq

/-- ABLFieldInit::ABLFieldInit (lines 10-63). `fs` models the filesystem
read of the velocity timetable: `none` when the file is missing or
unreadable (ifh.good() false), `some (time, speed, dir)` for the first
three whitespace-separated fields otherwise. The length assertion (line
18) precedes the timetable read (lines 41-52); in timetable mode the
"incflo.velocity" array is never read, so `vel` keeps its
default-constructed empty value. -/
def ABLFieldInit.construct (ops : RealOps) (fs : String → Option (ℚ × ℚ × ℚ))
    (inp : ParmParseInput) : Except AbortMsg ABLFieldInit :=
  if inp.temperature_heights.length = inp.temperature_values.length then
    if inp.velocity_timetable = "" then
      Except.ok
        { theta_heights := inp.temperature_heights
          theta_values := inp.temperature_values
          perturb_vel := inp.perturb_velocity
          ref_height := inp.perturb_ref_height
          Uperiods := inp.Uperiods
          Vperiods := inp.Vperiods
          deltaU := inp.deltaU
          deltaV := inp.deltaV
          perturb_theta := inp.perturb_temperature
          theta_gauss_mean := inp.random_gauss_mean
          theta_gauss_var := inp.random_gauss_var
          theta_cutoff_height := inp.cutoff_height
          deltaT := inp.theta_amplitude
          tke_init := inp.init_tke
          rho := inp.density
          vel_timetable := ""
          vel_speed := 0
          vel_dir := 0
          vel_rad := 0
          vel := inp.velocity }
    else
      match fs inp.velocity_timetable with
      | none => Except.error (AbortMsg.cannotFindInputFile inp.velocity_timetable)
      | some (_time, speed, dir) =>
          Except.ok
            { theta_heights := inp.temperature_heights
              theta_values := inp.temperature_values
              perturb_vel := inp.perturb_velocity
              ref_height := inp.perturb_ref_height
              Uperiods := inp.Uperiods
              Vperiods := inp.Vperiods
              deltaU := inp.deltaU
              deltaV := inp.deltaV
              perturb_theta := inp.perturb_temperature
              theta_gauss_mean := inp.random_gauss_mean
              theta_gauss_var := inp.random_gauss_var
              theta_cutoff_height := inp.cutoff_height
              deltaT := inp.theta_amplitude
              tke_init := inp.init_tke
              rho := inp.density
              vel_timetable := inp.velocity_timetable
              vel_speed := speed
              vel_dir := dir
              vel_rad := radians ops dir
              vel := [] }
  else Except.error AbortMsg.assertLengthMismatch

/-- Cell-center x coordinate: problo[0] + (i + 0.5) * dx[0] (line 103). -/
def cellX (geom : Geometry) (i : ℤ) : ℚ := geom.problo.x + ((i : ℚ) + 1/2) * geom.dx.x

/-- Cell-center y coordinate: problo[1] + (j + 0.5) * dx[1] (line 104). -/
def cellY (geom : Geometry) (j : ℤ) : ℚ := geom.problo.y + ((j : ℚ) + 1/2) * geom.dx.y

/-- Cell-center z coordinate: problo[2] + (k + 0.5) * dx[2] (line 105). -/
def cellZ (geom : Geometry) (k : ℤ) : ℚ := geom.problo.z + ((k : ℚ) + 1/2) * geom.dx.z

/-- Guard of the piecewise-linear interpolation loop (line 115):
th[iz] < z and z <= th[iz+1]. -/
def segMatch (th : List ℚ) (z : ℚ) (iz : ℕ) : Prop :=
  th.getD iz 0 < z ∧ z ≤ th.getD (iz + 1) 0

instance (th : List ℚ) (z : ℚ) (iz : ℕ) : Decidable (segMatch th z iz) := by
  unfold segMatch; infer_instance

/-- Body of the matching branch (lines 116-118): the candidate becomes
tv[iz] + (z - th[iz]) * slope with slope = (tv[iz+1] - tv[iz]) /
(th[iz+1] - th[iz]). -/
def interpAt (th tv : List ℚ) (z : ℚ) (iz : ℕ) : ℚ :=
  tv.getD iz 0 +
    (z - th.getD iz 0) * ((tv.getD (iz + 1) 0 - tv.getD iz 0) / (th.getD (iz + 1) 0 - th.getD iz 0))

/-- One iteration of the loop at lines 114-120. -/
def evalStep (th tv : List ℚ) (z : ℚ) (theta : ℚ) (iz : ℕ) : ℚ :=
  if segMatch th z iz then interpAt th tv z iz else theta

/-- The full profile evaluation (lines 113-120): candidate starts at
tv[0], then the loop runs iz = 0 .. ntvals-2 in order. -/
def evaluate (th tv : List ℚ) (z : ℚ) : ℚ :=
  (List.range (th.length - 1)).foldl (evalStep th tv z) (tv.getD 0 0)

/-- Division-checked instrumentation of one loop iteration: identical to
`evalStep` except that the slope division reports `none` if its divisor
th[iz+1] - th[iz] is zero on an executed branch. -/
def evalStepChecked (th tv : List ℚ) (z : ℚ) (theta : Option ℚ) (iz : ℕ) : Option ℚ :=
  match theta with
  | none => none
  | some t =>
      if segMatch th z iz then
        if th.getD (iz + 1) 0 - th.getD iz 0 = 0 then none
        else some (interpAt th tv z iz)
      else some t

/-- Division-checked instrumentation of `evaluate`. -/
def evaluateChecked (th tv : List ℚ) (z : ℚ) : Option ℚ :=
  (List.range (th.length - 1)).foldl (evalStepChecked th tv z) (some (tv.getD 0 0))

/-- The resolved mean velocity vector (lines 80-91): from the timetable
record when a timetable path is configured, otherwise the configured
constant vector. -/
def resolvedMeanVel (ops : RealOps) (c : ABLFieldInit) : Vec3 :=
  if c.vel_timetable = "" then
    ⟨c.vel.getD 0 0, c.vel.getD 1 0, c.vel.getD 2 0⟩
  else
    ⟨c.vel_speed * ops.cos c.vel_rad, c.vel_speed * ops.sin c.vel_rad, 0⟩

/-- aval = Uperiods * 2 * pi / (probhi[1] - problo[1]) (line 92). -/
def aval (ops : RealOps) (c : ABLFieldInit) (geom : Geometry) : ℚ :=
  c.Uperiods * 2 * ops.pi / (geom.probhi.y - geom.problo.y)

/-- bval = Vperiods * 2 * pi / (probhi[0] - problo[0]) (line 93). -/
def bval (ops : RealOps) (c : ABLFieldInit) (geom : Geometry) : ℚ :=
  c.Vperiods * 2 * ops.pi / (geom.probhi.x - geom.problo.x)

/-- ufac = deltaU * exp(0.5) / ref_height (line 94). -/
def ufac (ops : RealOps) (c : ABLFieldInit) : ℚ :=
  c.deltaU * ops.exp (1/2) / c.ref_height

/-- vfac = deltaV * exp(0.5) / ref_height (line 95). -/
def vfac (ops : RealOps) (c : ABLFieldInit) : ℚ :=
  c.deltaV * ops.exp (1/2) / c.ref_height

/-- The u-component perturbation added at a cell (lines 125-130):
ufac * exp(-0.5 * zl * zl) * z * cos(aval * yl) with zl = z / ref_height
and yl = y - problo[1]. -/
def pertU (ops : RealOps) (c : ABLFieldInit) (geom : Geometry) (y z : ℚ) : ℚ :=
  ufac ops c * ops.exp (-(1/2) * (z / c.ref_height) * (z / c.ref_height)) * z *
    ops.cos (aval ops c geom * (y - geom.problo.y))

/-- The v-component perturbation added at a cell (lines 125-131):
vfac * exp(-0.5 * zl * zl) * z * cos(bval * xl) with xl = x - problo[0]. -/
def pertV (ops : RealOps) (c : ABLFieldInit) (geom : Geometry) (x z : ℚ) : ℚ :=
  vfac ops c * ops.exp (-(1/2) * (z / c.ref_height) * (z / c.ref_height)) * z *
    ops.cos (bval ops c geom * (x - geom.problo.x))

/-- ABLFieldInit::operator() (lines 65-134): the per-cell mean-field pass
over the box `vbx`. Cells outside the box keep their previous values. -/
def ABLFieldInit.fieldInitPass (ops : RealOps) (c : ABLFieldInit) (vbx : Box)
    (geom : Geometry) (s : FieldState) : FieldState :=
  { velocity := fun i j k =>
      if vbx.mem i j k then
        let base := resolvedMeanVel ops c
        if c.perturb_vel then
          ⟨base.x + pertU ops c geom (cellY geom j) (cellZ geom k),
           base.y + pertV ops c geom (cellX geom i) (cellZ geom k),
           base.z⟩
        else base
      else s.velocity i j k
    density := fun i j k => if vbx.mem i j k then c.rho else s.density i j k
    temperature := fun i j k =>
      if vbx.mem i j k then
        s.temperature i j k + evaluate c.theta_heights c.theta_values (cellZ geom k)
      else s.temperature i j k }

/-- ABLFieldInit::perturb_temperature (lines 136-180). The Gaussian draw
amrex::RandomNormal(mean, var, engine) is modelled by the abstract
per-cell stream `sample` (the random engine lives in the external AMReX
library); the structure verified here is the branch on the cutoff height
and the overwrite (not add) of the temperature value. `region` is the
union of the tileboxes iterated by the MFIter loop. -/
def ABLFieldInit.perturb_temperature (c : ABLFieldInit) (geom : Geometry) (region : Box)
    (sample : ℤ → ℤ → ℤ → ℚ) (temp : ℤ → ℤ → ℤ → ℚ) : ℤ → ℤ → ℤ → ℚ :=
  fun i j k =>
    if region.mem i j k then
      if cellZ geom k < c.theta_cutoff_height then c.deltaT * sample i j k
      else temp i j k
    else temp i j k

/-- ABLFieldInit::init_tke (lines 183-187): tke.setVal(m_tke_init, 1)
fills every cell of every box of the MultiFab's box array, each grown by
one ghost layer, with the configured constant. `boxes` is the box array;
an empty MultiFab has no boxes. -/
def ABLFieldInit.init_tke_pass (c : ABLFieldInit) (boxes : List Box)
    (tke : ℤ → ℤ → ℤ → ℚ) : ℤ → ℤ → ℤ → ℚ :=
  fun i j k =>
    if boxes.any (fun b => (b.grow 1).mem i j k) then c.tke_init else tke i j k

/- Concrete fixtures used by witness theorems. -/

/-- A concrete nontrivial interpretation of the transcendental
primitives, for witnesses. -/
def sampleOps : RealOps := { pi := 3, cos := fun q => q + 1, sin := fun q => q - 1, exp := fun q => q + 2 }

/-- A concrete geometry for witnesses: unit cells, origin 0, domain up to 8. -/
def sampleGeom : Geometry := { problo := ⟨0, 0, 0⟩, probhi := ⟨8, 8, 8⟩, dx := ⟨1, 1, 1⟩ }

/-- A concrete box for witnesses. -/
def sampleBox : Box := ⟨0, 0, 0, 3, 3, 3⟩

/-- A concrete prior field state for witnesses. -/
def sampleState : FieldState :=
  { velocity := fun _ _ _ => ⟨0, 0, 0⟩
    density := fun _ _ _ => 0
    temperature := fun _ _ _ => 1 }

/-- A concrete constructed configuration for witnesses (constant velocity
mode, perturbation disabled). -/
def sampleCfg : ABLFieldInit :=
  { theta_heights := [0, 100, 500]
    theta_values := [290, 300, 310]
    perturb_vel := false
    ref_height := 50
    Uperiods := 4
    Vperiods := 4
    deltaU := 1
    deltaV := 1
    perturb_theta := true
    theta_gauss_mean := 0
    theta_gauss_var := 1
    theta_cutoff_height := 3
    deltaT := 1
    tke_init := 1/2
    rho := 1
    vel_timetable := ""
    vel_speed := 0
    vel_dir := 0
    vel_rad := 0
    vel := [4, 5, 6] }

/-- Same configuration with velocity perturbation enabled and unit
reference height. -/
def sampleCfgP : ABLFieldInit := { sampleCfg with perturb_vel := true, ref_height := 1 }

/-- A concrete configuration snapshot for witnesses (constant velocity
mode). -/
def sampleInput : ParmParseInput :=
  { temperature_heights := [0, 100, 500]
    temperature_values := [290, 300, 310]
    perturb_velocity := false
    perturb_ref_height := 50
    Uperiods := 4
    Vperiods := 4
    deltaU := 1
    deltaV := 1
    perturb_temperature := true
    random_gauss_mean := 0
    random_gauss_var := 1
    cutoff_height := 3
    theta_amplitude := 1
    init_tke := 1/2
    density := 1
    velocity_timetable := ""
    velocity := [4, 5, 6] }

/-- The same snapshot in timetable mode. -/
def sampleInputT : ParmParseInput := { sampleInput with velocity_timetable := "wind.dat" }

/-- A filesystem in which wind.dat holds the record "120.5 8.0 270.0". -/
def sampleFS : String → Option (ℚ × ℚ × ℚ) :=
  fun p => if p = "wind.dat" then some (241/2, 8, 270) else none

/-- A filesystem in which every file is missing. -/
def emptyFS : String → Option (ℚ × ℚ × ℚ) := fun _ => none

/-- The configuration that `construct` produces from `sampleInputT` over
`sampleFS`. -/
def timetableCfg : ABLFieldInit :=
  { theta_heights := [0, 100, 500]
    theta_values := [290, 300, 310]
    perturb_vel := false
    ref_height := 50
    Uperiods := 4
    Vperiods := 4
    deltaU := 1
    deltaV := 1
    perturb_theta := true
    theta_gauss_mean := 0
    theta_gauss_var := 1
    theta_cutoff_height := 3
    deltaT := 1
    tke_init := 1/2
    rho := 1
    vel_timetable := "wind.dat"
    vel_speed := 8
    vel_dir := 270
    vel_rad := radians sampleOps 270
    vel := [] }

/-- A concrete per-cell sample stream for witnesses. -/
def sampleDraw : ℤ → ℤ → ℤ → ℚ := fun i j k => (i : ℚ) + (j : ℚ) + (k : ℚ) + 5

/-- A concrete prior temperature field for witnesses. -/
def sampleTemp : ℤ → ℤ → ℤ → ℚ := fun _ _ _ => 9

/- Helper lemmas about the profile-evaluation loop. -/

/-- Monotonicity of positional access in a sorted list. -/
theorem getD_mono_of_sorted {th : List ℚ} (hs : th.Sorted (fun a b => a ≤ b))
    {a b : ℕ} (hab : a ≤ b) (hb : b < th.length) :
    th.getD a 0 ≤ th.getD b 0 := by
  rcases Nat.lt_or_ge a b with hlt | hge
  · have ha : a < th.length := lt_trans hlt hb
    rw [List.getD_eq_getElem th 0 ha, List.getD_eq_getElem th 0 hb]
    exact hs.rel_get_of_lt (a := ⟨a, ha⟩) (b := ⟨b, hb⟩) hlt
  · have : a = b := Nat.le_antisymm hab hge
    subst this
    exact le_rfl

/-- If no index of the iteration list matches, the loop leaves the
candidate unchanged. -/
theorem foldl_evalStep_no_match (th tv : List ℚ) (z : ℚ) (L : List ℕ) (t : ℚ)
    (h : ∀ iz ∈ L, ¬ segMatch th z iz) :
    L.foldl (evalStep th tv z) t = t := by
  induction L generalizing t with
  | nil => rfl
  | cons a L ih =>
      rw [List.foldl_cons, evalStep, if_neg (h a (List.mem_cons_self a L))]
      exact ih t (fun iz hiz => h iz (List.mem_cons_of_mem a hiz))

/-- Once the candidate holds the interpolation of the unique matching
index, later iterations keep it. -/
theorem foldl_evalStep_stable (th tv : List ℚ) (z : ℚ) (i : ℕ) (L : List ℕ)
    (h : ∀ j ∈ L, segMatch th z j → j = i) :
    L.foldl (evalStep th tv z) (interpAt th tv z i) = interpAt th tv z i := by
  induction L with
  | nil => rfl
  | cons a L ih =>
      rw [List.foldl_cons]
      by_cases hg : segMatch th z a
      · rw [evalStep, if_pos hg, h a (List.mem_cons_self a L) hg]
        exact ih (fun j hj => h j (List.mem_cons_of_mem a hj))
      · rw [evalStep, if_neg hg]
        exact ih (fun j hj => h j (List.mem_cons_of_mem a hj))

/-- If the iteration list contains a matching index and every matching
index equals it, the loop computes the interpolation at that index. -/
theorem foldl_evalStep_unique (th tv : List ℚ) (z : ℚ) (i : ℕ) (L : List ℕ) (t : ℚ)
    (hGi : segMatch th z i) (hmem : i ∈ L)
    (huniq : ∀ j ∈ L, segMatch th z j → j = i) :
    L.foldl (evalStep th tv z) t = interpAt th tv z i := by
  induction L generalizing t with
  | nil => cases hmem
  | cons a L ih =>
      rw [List.foldl_cons]
      by_cases hg : segMatch th z a
      · have ha : a = i := huniq a (List.mem_cons_self a L) hg
        subst ha
        rw [evalStep, if_pos hg]
        exact foldl_evalStep_stable th tv z a L
          (fun j hj hgj => huniq j (List.mem_cons_of_mem a hj) hgj)
      · rw [evalStep, if_neg hg]
        have hi : i ∈ L := by
          rcases List.mem_cons.mp hmem with rfl | hl
          · exact absurd hGi hg
          · exact hl
        exact ih t hi (fun j hj hgj => huniq j (List.mem_cons_of_mem a hj) hgj)

/-- In a sorted table at most one adjacent pair brackets a given z. -/
theorem segMatch_unique {th : List ℚ} (hs : th.Sorted (fun a b => a ≤ b))
    {z : ℚ} {i j : ℕ} (hi : i + 1 < th.length) (hj : j + 1 < th.length)
    (hgi : segMatch th z i) (hgj : segMatch th z j) : j = i := by
  by_contra hne
  rcases Nat.lt_or_ge j i with h | h
  · have hle : th.getD (j + 1) 0 ≤ th.getD i 0 :=
      getD_mono_of_sorted hs (by omega) (by omega)
    exact absurd hgi.1 (not_lt.mpr (le_trans hgj.2 hle))
  · have hij : i < j := by omega
    have hle : th.getD (i + 1) 0 ≤ th.getD j 0 :=
      getD_mono_of_sorted hs (by omega) (by omega)
    exact absurd hgj.1 (not_lt.mpr (le_trans hgi.2 hle))

/-- Checked and unchecked loops agree when started from a present value:
every executed division has a nonzero divisor. -/
theorem foldl_evalStepChecked_eq (th tv : List ℚ) (z : ℚ) (L : List ℕ) (t : ℚ) :
    L.foldl (evalStepChecked th tv z) (some t) = some (L.foldl (evalStep th tv z) t) := by
  induction L generalizing t with
  | nil => rfl
  | cons a L ih =>
      rw [List.foldl_cons, List.foldl_cons]
      by_cases hg : segMatch th z a
      · have hd : ¬ (th.getD (a + 1) 0 - th.getD a 0 = 0) := by
          have hlt : th.getD a 0 < th.getD (a + 1) 0 := lt_of_lt_of_le hg.1 hg.2
          exact sub_ne_zero.mpr (ne_of_gt hlt)
        rw [evalStepChecked, evalStep, if_pos hg, if_neg hd, if_pos hg]
        exact ih (interpAt th tv z a)
      · rw [evalStepChecked, evalStep, if_neg hg, if_neg hg]
        exact ih t

/-- Claim C1: ProfileTable evaluation matches its reference piecewise
definition on a sorted table: for z at or below the first breakpoint the
result is values[0]; for z bracketed by breakpoints i and i+1 the result
is the exact linear interpolation between them; and for z above the
highest breakpoint the result is again values[0], the first tabulated
value, not an extrapolation of the last segment. -/
theorem C1_evaluate_piecewise (th tv : List ℚ)
    (hs : th.Sorted (fun a b => a ≤ b)) (z : ℚ) :
    (z ≤ th.getD 0 0 → evaluate th tv z = tv.getD 0 0) ∧
    (∀ i : ℕ, i + 1 < th.length → th.getD i 0 < z → z ≤ th.getD (i + 1) 0 →
      evaluate th tv z =
        tv.getD i 0 + (z - th.getD i 0) *
          ((tv.getD (i + 1) 0 - tv.getD i 0) / (th.getD (i + 1) 0 - th.getD i 0))) ∧
    (th.getD (th.length - 1) 0 < z → evaluate th tv z = tv.getD 0 0) := by
  refine ⟨fun hz => ?_, fun i hi hlo hhi => ?_, fun hz => ?_⟩
  · unfold evaluate
    refine foldl_evalStep_no_match th tv z _ _ (fun iz hiz hseg => ?_)
    have hiz' : iz < th.length - 1 := List.mem_range.mp hiz
    have hle : th.getD 0 0 ≤ th.getD iz 0 :=
      getD_mono_of_sorted hs (Nat.zero_le iz) (by omega)
    exact absurd hseg.1 (not_lt.mpr (le_trans hz hle))
  · unfold evaluate
    exact foldl_evalStep_unique th tv z i _ _ ⟨hlo, hhi⟩
      (List.mem_range.mpr (by omega))
      (fun j hj hgj =>
        segMatch_unique hs hi (by have := List.mem_range.mp hj; omega) ⟨hlo, hhi⟩ hgj)
  · unfold evaluate
    refine foldl_evalStep_no_match th tv z _ _ (fun iz hiz hseg => ?_)
    have hiz' : iz < th.length - 1 := List.mem_range.mp hiz
    have hle : th.getD (iz + 1) 0 ≤ th.getD (th.length - 1) 0 :=
      getD_mono_of_sorted hs (by omega) (by omega)
    exact absurd (lt_of_le_of_lt (le_trans hseg.2 hle) hz) (lt_irrefl z)

/-- Witness for C1 at the spec's example table: heights [0, 100, 500],
values [290, 300, 310] give evaluate 50 = 295 (interior interpolation),
evaluate (-3) = 290 (below), evaluate 700 = 290 (above the top). -/
theorem C1_evaluate_piecewise_witness :
    evaluate [0, 100, 500] [290, 300, 310] 50 = 295 ∧
    evaluate [0, 100, 500] [290, 300, 310] (-3) = 290 ∧
    evaluate [0, 100, 500] [290, 300, 310] 700 = 290 := by
  have h50 := C1_evaluate_piecewise [0, 100, 500] [290, 300, 310] (by decide) 50
  have hlo := C1_evaluate_piecewise [0, 100, 500] [290, 300, 310] (by decide) (-3)
  have hhi := C1_evaluate_piecewise [0, 100, 500] [290, 300, 310] (by decide) 700
  refine ⟨?_, hlo.1 (by norm_num), hhi.2.2 (by norm_num)⟩
  have := h50.2.1 0 (by norm_num) (by norm_num) (by norm_num)
  rw [this]
  norm_num

/-- The u-perturbation term rewritten into the spec's algebraic form. -/
theorem pertU_eq (ops : RealOps) (c : ABLFieldInit) (geom : Geometry) (y z : ℚ) :
    pertU ops c geom y z =
      c.deltaU * ops.exp (1/2) / c.ref_height *
        ops.exp (-(1/2) * (z / c.ref_height)^2) * z *
        ops.cos (2 * ops.pi * c.Uperiods * (y - geom.problo.y) /
          (geom.probhi.y - geom.problo.y)) := by
  unfold pertU ufac aval
  rw [show -(1/2 : ℚ) * (z / c.ref_height) * (z / c.ref_height) =
      -(1/2) * (z / c.ref_height)^2 from by ring]
  rw [show c.Uperiods * 2 * ops.pi / (geom.probhi.y - geom.problo.y) * (y - geom.problo.y) =
      2 * ops.pi * c.Uperiods * (y - geom.problo.y) / (geom.probhi.y - geom.problo.y)
      from by ring]

/-- The v-perturbation term rewritten into the spec's algebraic form. -/
theorem pertV_eq (ops : RealOps) (c : ABLFieldInit) (geom : Geometry) (x z : ℚ) :
    pertV ops c geom x z =
      c.deltaV * ops.exp (1/2) / c.ref_height *
        ops.exp (-(1/2) * (z / c.ref_height)^2) * z *
        ops.cos (2 * ops.pi * c.Vperiods * (x - geom.problo.x) /
          (geom.probhi.x - geom.problo.x)) := by
  unfold pertV vfac bval
  rw [show -(1/2 : ℚ) * (z / c.ref_height) * (z / c.ref_height) =
      -(1/2) * (z / c.ref_height)^2 from by ring]
  rw [show c.Vperiods * 2 * ops.pi / (geom.probhi.x - geom.problo.x) * (x - geom.problo.x) =
      2 * ops.pi * c.Vperiods * (x - geom.problo.x) / (geom.probhi.x - geom.problo.x)
      from by ring]

/-- The u-perturbation term vanishes at z = 0. -/
theorem pertU_zero (ops : RealOps) (c : ABLFieldInit) (geom : Geometry) (y : ℚ) :
    pertU ops c geom y 0 = 0 := by
  unfold pertU
  ring

/-- The v-perturbation term vanishes at z = 0. -/
theorem pertV_zero (ops : RealOps) (c : ABLFieldInit) (geom : Geometry) (x : ℚ) :
    pertV ops c geom x 0 = 0 := by
  unfold pertV
  ring

/-- The velocity written by the mean-field pass at an in-box cell: the one
resolved mean vector plus, when enabled, the perturbation terms. -/
theorem fieldInitPass_velocity (ops : RealOps) (c : ABLFieldInit) (vbx : Box)
    (geom : Geometry) (s : FieldState) (i j k : ℤ) (hmem : vbx.mem i j k = true) :
    (c.fieldInitPass ops vbx geom s).velocity i j k =
      ⟨(resolvedMeanVel ops c).x +
          (if c.perturb_vel then pertU ops c geom (cellY geom j) (cellZ geom k) else 0),
       (resolvedMeanVel ops c).y +
          (if c.perturb_vel then pertV ops c geom (cellX geom i) (cellZ geom k) else 0),
       (resolvedMeanVel ops c).z⟩ := by
  unfold ABLFieldInit.fieldInitPass
  cases hb : c.perturb_vel <;> simp [hmem, hb]

/-- Claim C6: with velocity perturbation disabled, the mean-field pass
gives every in-box cell the resolved mean velocity vector and the
configured constant density, and adds (does not overwrite)
ProfileTable.evaluate(z) to the cell's prior temperature. -/
theorem C6_mean_field_no_perturb (ops : RealOps) (c : ABLFieldInit) (vbx : Box)
    (geom : Geometry) (s : FieldState) (i j k : ℤ)
    (hp : c.perturb_vel = false) (hmem : vbx.mem i j k = true) :
    (c.fieldInitPass ops vbx geom s).velocity i j k = resolvedMeanVel ops c ∧
    (c.fieldInitPass ops vbx geom s).density i j k = c.rho ∧
    (c.fieldInitPass ops vbx geom s).temperature i j k =
      s.temperature i j k + evaluate c.theta_heights c.theta_values (cellZ geom k) := by
  unfold ABLFieldInit.fieldInitPass
  simp [hmem, hp]

/-- Witness for C6 at a concrete configuration, geometry and cell. -/
theorem C6_mean_field_no_perturb_witness :
    (sampleCfg.fieldInitPass sampleOps sampleBox sampleGeom sampleState).velocity 1 2 0 =
      resolvedMeanVel sampleOps sampleCfg ∧
    (sampleCfg.fieldInitPass sampleOps sampleBox sampleGeom sampleState).density 1 2 0 =
      sampleCfg.rho ∧
    (sampleCfg.fieldInitPass sampleOps sampleBox sampleGeom sampleState).temperature 1 2 0 =
      sampleState.temperature 1 2 0 +
        evaluate sampleCfg.theta_heights sampleCfg.theta_values (cellZ sampleGeom 0) :=
  C6_mean_field_no_perturb sampleOps sampleCfg sampleBox sampleGeom sampleState 1 2 0
    rfl (by decide)

/-- Claim C4: with velocity perturbation enabled, every in-box cell's
u-component is the mean plus exactly
deltaU * exp(0.5) / refHeight * exp(-0.5*(z/refHeight)^2) * z *
cos(2*pi*Uperiods*(y - originY)/domainHeightY), the v-component gets the
symmetric expression with deltaV, Vperiods, x, originX, domainWidthX, and
the added terms are exactly 0 at z = 0. -/
theorem C4_velocity_perturbation (ops : RealOps) (c : ABLFieldInit) (vbx : Box)
    (geom : Geometry) (s : FieldState) (i j k : ℤ)
    (hp : c.perturb_vel = true) (hmem : vbx.mem i j k = true) :
    ((c.fieldInitPass ops vbx geom s).velocity i j k).x =
      (resolvedMeanVel ops c).x +
        c.deltaU * ops.exp (1/2) / c.ref_height *
          ops.exp (-(1/2) * (cellZ geom k / c.ref_height)^2) * cellZ geom k *
          ops.cos (2 * ops.pi * c.Uperiods * (cellY geom j - geom.problo.y) /
            (geom.probhi.y - geom.problo.y)) ∧
    ((c.fieldInitPass ops vbx geom s).velocity i j k).y =
      (resolvedMeanVel ops c).y +
        c.deltaV * ops.exp (1/2) / c.ref_height *
          ops.exp (-(1/2) * (cellZ geom k / c.ref_height)^2) * cellZ geom k *
          ops.cos (2 * ops.pi * c.Vperiods * (cellX geom i - geom.problo.x) /
            (geom.probhi.x - geom.problo.x)) ∧
    (∀ y : ℚ, pertU ops c geom y 0 = 0) ∧
    (∀ x : ℚ, pertV ops c geom x 0 = 0) := by
  have hv := fieldInitPass_velocity ops c vbx geom s i j k hmem
  rw [hp] at hv
  refine ⟨?_, ?_, fun y => pertU_zero ops c geom y, fun x => pertV_zero ops c geom x⟩
  · rw [hv]
    show (resolvedMeanVel ops c).x + pertU ops c geom (cellY geom j) (cellZ geom k) = _
    rw [pertU_eq]
  · rw [hv]
    show (resolvedMeanVel ops c).y + pertV ops c geom (cellX geom i) (cellZ geom k) = _
    rw [pertV_eq]

/-- Witness for C4 at a concrete configuration, geometry and cell. -/
theorem C4_velocity_perturbation_witness :
    ((sampleCfgP.fieldInitPass sampleOps sampleBox sampleGeom sampleState).velocity 0 0 0).x =
      (resolvedMeanVel sampleOps sampleCfgP).x +
        sampleCfgP.deltaU * sampleOps.exp (1/2) / sampleCfgP.ref_height *
          sampleOps.exp (-(1/2) * (cellZ sampleGeom 0 / sampleCfgP.ref_height)^2) *
          cellZ sampleGeom 0 *
          sampleOps.cos (2 * sampleOps.pi * sampleCfgP.Uperiods *
            (cellY sampleGeom 0 - sampleGeom.problo.y) /
            (sampleGeom.probhi.y - sampleGeom.problo.y)) ∧
    pertU sampleOps sampleCfgP sampleGeom 7 0 = 0 := by
  have h := C4_velocity_perturbation sampleOps sampleCfgP sampleBox sampleGeom sampleState
    0 0 0 rfl (by decide)
  exact ⟨h.1, h.2.2.1 7⟩

/-- Claim C3: in timetable mode the resolved mean velocity vector is
u = speed * cos(radians(dir)), v = speed * sin(radians(dir)), w = 0, and
the mean-field pass uses this one resolved vector at every cell (plus the
optional perturbation terms). -/
theorem C3_timetable_mean_velocity (ops : RealOps) (fs : String → Option (ℚ × ℚ × ℚ))
    (inp : ParmParseInput) (c : ABLFieldInit) (t speed dir : ℚ)
    (hp : inp.velocity_timetable ≠ "")
    (hfs : fs inp.velocity_timetable = some (t, speed, dir))
    (hc : ABLFieldInit.construct ops fs inp = Except.ok c) :
    resolvedMeanVel ops c =
      ⟨speed * ops.cos (ops.pi * dir / 180), speed * ops.sin (ops.pi * dir / 180), 0⟩ ∧
    ∀ (vbx : Box) (geom : Geometry) (s : FieldState) (i j k : ℤ),
      vbx.mem i j k = true →
      (c.fieldInitPass ops vbx geom s).velocity i j k =
        ⟨(resolvedMeanVel ops c).x +
            (if c.perturb_vel then pertU ops c geom (cellY geom j) (cellZ geom k) else 0),
         (resolvedMeanVel ops c).y +
            (if c.perturb_vel then pertV ops c geom (cellX geom i) (cellZ geom k) else 0),
         (resolvedMeanVel ops c).z⟩ := by
  unfold ABLFieldInit.construct at hc
  by_cases hlen : inp.temperature_heights.length = inp.temperature_values.length
  · rw [if_pos hlen, if_neg hp, hfs] at hc
    injection hc with h
    subst h
    constructor
    · unfold resolvedMeanVel radians
      rw [if_neg hp]
    · intro vbx geom s i j k hmem
      exact fieldInitPass_velocity ops _ vbx geom s i j k hmem
  · rw [if_neg hlen] at hc
    exact Except.noConfusion hc

/-- Witness for C3 over the spec's example record "120.5 8.0 270.0". -/
theorem C3_timetable_mean_velocity_witness :
    resolvedMeanVel sampleOps timetableCfg =
      ⟨8 * sampleOps.cos (sampleOps.pi * 270 / 180),
       8 * sampleOps.sin (sampleOps.pi * 270 / 180), 0⟩ ∧
    (timetableCfg.fieldInitPass sampleOps sampleBox sampleGeom sampleState).velocity 1 2 0 =
      ⟨(resolvedMeanVel sampleOps timetableCfg).x +
          (if timetableCfg.perturb_vel then
            pertU sampleOps timetableCfg sampleGeom (cellY sampleGeom 2) (cellZ sampleGeom 0)
          else 0),
       (resolvedMeanVel sampleOps timetableCfg).y +
          (if timetableCfg.perturb_vel then
            pertV sampleOps timetableCfg sampleGeom (cellX sampleGeom 1) (cellZ sampleGeom 0)
          else 0),
       (resolvedMeanVel sampleOps timetableCfg).z⟩ := by
  have h := C3_timetable_mean_velocity sampleOps sampleFS sampleInputT timetableCfg
    (241/2) 8 270 (by decide) rfl rfl
  exact ⟨h.1, h.2 sampleBox sampleGeom sampleState 1 2 0 (by decide)⟩

/-- Claim C5: the stochastic pass overwrites (does not add to) the
temperature of every in-region cell whose center height is strictly below
the cutoff with amplitude * sample, and leaves every cell at or above the
cutoff exactly unchanged. The Gaussian sample stream is abstract. -/
theorem C5_perturb_temperature_frame (c : ABLFieldInit) (geom : Geometry) (region : Box)
    (sample temp : ℤ → ℤ → ℤ → ℚ) (i j k : ℤ) :
    (region.mem i j k = true → cellZ geom k < c.theta_cutoff_height →
      c.perturb_temperature geom region sample temp i j k = c.deltaT * sample i j k) ∧
    (c.theta_cutoff_height ≤ cellZ geom k →
      c.perturb_temperature geom region sample temp i j k = temp i j k) := by
  unfold ABLFieldInit.perturb_temperature
  constructor
  · intro hmem hz
    simp [hmem, hz]
  · intro hz
    by_cases hm : region.mem i j k <;> simp [hm, not_lt.mpr hz]

/-- Witness for C5: a below-cutoff cell is overwritten, an above-cutoff
cell keeps its prior value. -/
theorem C5_perturb_temperature_frame_witness :
    sampleCfg.perturb_temperature sampleGeom sampleBox sampleDraw sampleTemp 0 0 0 =
      sampleCfg.deltaT * sampleDraw 0 0 0 ∧
    sampleCfg.perturb_temperature sampleGeom sampleBox sampleDraw sampleTemp 0 0 5 =
      sampleTemp 0 0 5 := by
  refine ⟨?_, ?_⟩
  · exact (C5_perturb_temperature_frame sampleCfg sampleGeom sampleBox
      sampleDraw sampleTemp 0 0 0).1 (by decide)
      (by norm_num [cellZ, sampleGeom, sampleCfg])
  · exact (C5_perturb_temperature_frame sampleCfg sampleGeom sampleBox
      sampleDraw sampleTemp 0 0 5).2 (by norm_num [cellZ, sampleGeom, sampleCfg])

/-- Claim C7: in timetable mode, a missing or unreadable timetable file
makes construction fail fatally with the file path in the diagnostic, and
no initializer object is produced. -/
theorem C7_timetable_missing_abort (ops : RealOps) (fs : String → Option (ℚ × ℚ × ℚ))
    (inp : ParmParseInput)
    (hlen : inp.temperature_heights.length = inp.temperature_values.length)
    (hp : inp.velocity_timetable ≠ "")
    (hfs : fs inp.velocity_timetable = none) :
    ABLFieldInit.construct ops fs inp =
      Except.error (AbortMsg.cannotFindInputFile inp.velocity_timetable) ∧
    (AbortMsg.cannotFindInputFile inp.velocity_timetable).render =
      "Cannot find input file: " ++ inp.velocity_timetable ∧
    ∀ c : ABLFieldInit, ABLFieldInit.construct ops fs inp ≠ Except.ok c := by
  have h1 : ABLFieldInit.construct ops fs inp =
      Except.error (AbortMsg.cannotFindInputFile inp.velocity_timetable) := by
    unfold ABLFieldInit.construct
    rw [if_pos hlen, if_neg hp, hfs]
  refine ⟨h1, rfl, fun c hc => ?_⟩
  rw [h1] at hc
  exact Except.noConfusion hc

/-- Witness for C7 with a concrete missing file. -/
theorem C7_timetable_missing_abort_witness :
    ABLFieldInit.construct sampleOps emptyFS sampleInputT =
      Except.error (AbortMsg.cannotFindInputFile "wind.dat") ∧
    (AbortMsg.cannotFindInputFile "wind.dat").render =
      "Cannot find input file: " ++ "wind.dat" := by
  have h := C7_timetable_missing_abort sampleOps emptyFS sampleInputT rfl (by decide) rfl
  exact ⟨h.1, h.2.1⟩

/-- Counterexample to C8 as stated: with equal-length temperature tables
but a configured-and-missing timetable file, construction still fails
fatally, so construction does not fail "if and only if" the lengths
differ, and equal lengths alone do not guarantee success. -/
theorem C8_counterexample :
    sampleInputT.temperature_heights.length = sampleInputT.temperature_values.length ∧
    ABLFieldInit.construct sampleOps emptyFS sampleInputT =
      Except.error (AbortMsg.cannotFindInputFile "wind.dat") := by
  exact ⟨rfl, rfl⟩

/-- Claim C8 (amended): construction fails with the length-mismatch
diagnostic (which names the two offending tables) if and only if the
temperature-height and temperature-value sequences have different
lengths; when the lengths are equal and the velocity source is available
(constant mode, or timetable mode with a readable file), construction
succeeds and the table is stored unchanged. -/
theorem C8_length_validation (ops : RealOps) (fs : String → Option (ℚ × ℚ × ℚ))
    (inp : ParmParseInput) :
    (ABLFieldInit.construct ops fs inp = Except.error AbortMsg.assertLengthMismatch ↔
      inp.temperature_heights.length ≠ inp.temperature_values.length) ∧
    (inp.temperature_heights.length = inp.temperature_values.length →
      (inp.velocity_timetable = "" ∨ (∃ r, fs inp.velocity_timetable = some r)) →
      ∃ c, ABLFieldInit.construct ops fs inp = Except.ok c ∧
        c.theta_heights = inp.temperature_heights ∧
        c.theta_values = inp.temperature_values) := by
  constructor
  · constructor
    · intro h hlen
      unfold ABLFieldInit.construct at h
      rw [if_pos hlen] at h
      by_cases hv : inp.velocity_timetable = ""
      · rw [if_pos hv] at h
        exact Except.noConfusion h
      · rw [if_neg hv] at h
        cases hfs : fs inp.velocity_timetable with
        | none =>
            rw [hfs] at h
            injection h with h
            exact AbortMsg.noConfusion h
        | some r =>
            rcases r with ⟨tval, sval, dval⟩
            rw [hfs] at h
            exact Except.noConfusion h
    · intro hlen
      unfold ABLFieldInit.construct
      rw [if_neg hlen]
  · intro hlen hav
    unfold ABLFieldInit.construct
    rw [if_pos hlen]
    by_cases hv : inp.velocity_timetable = ""
    · rw [if_pos hv]
      exact ⟨_, rfl, rfl, rfl⟩
    · rcases hav with hv' | ⟨r, hfs⟩
      · exact absurd hv' hv
      · rcases r with ⟨tval, sval, dval⟩
        rw [if_neg hv, hfs]
        exact ⟨_, rfl, rfl, rfl⟩

/-- Witness for C8 (amended): equal lengths with an available constant
velocity source construct successfully with the table stored unchanged,
and mismatched lengths abort with the length diagnostic. -/
theorem C8_length_validation_witness :
    ABLFieldInit.construct sampleOps sampleFS sampleInput = Except.ok sampleCfg ∧
    ABLFieldInit.construct sampleOps sampleFS
        { sampleInput with temperature_values := [290] } =
      Except.error AbortMsg.assertLengthMismatch := by
  have h := (C8_length_validation sampleOps sampleFS sampleInput).2 rfl (Or.inl rfl)
  have h2 := (C8_length_validation sampleOps sampleFS
    { sampleInput with temperature_values := [290] }).1.mpr (by decide)
  obtain ⟨c, hc, h3, h4⟩ := h
  refine ⟨?_, h2⟩
  rw [show sampleCfg = c from ?_]
  · exact hc
  · have : ABLFieldInit.construct sampleOps sampleFS sampleInput = Except.ok sampleCfg := rfl
    rw [this] at hc
    injection hc

/-- Claim C9: the TKE pass fills every owned cell of every box of the
region with the configured constant, and is a no-op for an empty region. -/
theorem C9_init_tke (c : ABLFieldInit) (boxes : List Box) (tke : ℤ → ℤ → ℤ → ℚ)
    (i j k : ℤ) :
    ((∃ b ∈ boxes, b.mem i j k = true) →
      ABLFieldInit.init_tke_pass c boxes tke i j k = c.tke_init) ∧
    (boxes = [] → ABLFieldInit.init_tke_pass c boxes tke i j k = tke i j k) := by
  constructor
  · rintro ⟨b, hb, hmem⟩
    unfold ABLFieldInit.init_tke_pass
    have hg : (b.grow 1).mem i j k = true := by
      simp only [Box.mem, Box.grow, decide_eq_true_eq] at hmem ⊢
      omega
    have hany : boxes.any (fun b => (b.grow 1).mem i j k) = true :=
      List.any_eq_true.mpr ⟨b, hb, hg⟩
    simp [hany]
  · rintro rfl
    unfold ABLFieldInit.init_tke_pass
    simp

/-- Witness for C9: a cell of a concrete one-box region is set to the
constant, and the empty region leaves the field unchanged. -/
theorem C9_init_tke_witness :
    ABLFieldInit.init_tke_pass sampleCfg [sampleBox] sampleTemp 1 2 3 = sampleCfg.tke_init ∧
    ABLFieldInit.init_tke_pass sampleCfg [] sampleTemp 1 2 3 = sampleTemp 1 2 3 := by
  refine ⟨?_, ?_⟩
  · exact (C9_init_tke sampleCfg [sampleBox] sampleTemp 1 2 3).1
      ⟨sampleBox, by simp, by decide⟩
  · exact (C9_init_tke sampleCfg [] sampleTemp 1 2 3).2 rfl

/-- Claim C10: profile evaluation is total and never divides by zero, for
any query height and any breakpoint arrays (unordered or with duplicate
adjacent heights included): the division-checked instrumentation always
returns the unchecked result, because the slope division only executes
under the guard heights[i] < z <= heights[i+1], which forces a nonzero
divisor. -/
theorem C10_evaluate_no_div_by_zero (th tv : List ℚ) (z : ℚ) :
    evaluateChecked th tv z = some (evaluate th tv z) := by
  unfold evaluateChecked evaluate
  exact foldl_evalStepChecked_eq th tv z _ _

end amr_wind
